import Mathlib

/-!
Shallow embedding of the core of `src/streamlit_app.py` (Dragon Metrics Traffic
Analyzer): the classifier `process_traffic_data` and the path aggregator
`analyze_subfolders`, together with the pandas primitives they use.

Modelling conventions, stated once:
* A pandas DataFrame is column-major: an integer row-label index plus named
  columns of cells (`Table`).  `read_excel` produces labels `0..n-1`; boolean
  filtering keeps the original labels, which is what `pd.concat(axis=1)`
  aligns on.
* A cell is `Option Val`; `none` models NaN/missing.  Numeric traffic cells
  are modelled as integers (`Val.num`); the aggregator's sums are then exact,
  as §4.2 of the spec requires of the aggregation arithmetic.  Percentage
  rounding is done exactly on integer fractions (numpy's round-half-even),
  rather than on binary floating point.
* Case-insensitive matching is modelled by ASCII lowercasing, string
  trimming by ASCII whitespace; `re.escape` makes the queries literal
  substrings, so matching is plain substring containment.
* `sort_values(..., kind=default)` is modelled as a stable descending sort
  (pandas reverses, stably argsorts ascending, and reverses back; numpy's
  introsort degenerates to the stable insertion sort on the small arrays the
  concrete theorems below evaluate).
-/

/-- A value held in a DataFrame cell: a string, an integer-valued number, or a
boolean (the derived match flags). -/
inductive Val where
  | s (v : String)
  | num (v : Int)
  | b (v : Bool)
deriving DecidableEq

/-- A cell of a DataFrame; `none` models pandas NaN/missing. -/
abbrev Cell := Option Val

/-- Column-major DataFrame: an index of integer row labels plus named columns.
Each column holds one cell per row label, in index order. -/
structure Table where
  index : List Nat
  cols : List (String × List Cell)
deriving DecidableEq

/-- Names of the columns, in order (`df.columns.tolist()`). -/
def Table.colNames (t : Table) : List String :=
  t.cols.map (fun c => c.1)

/-- Look up a column by name (`df[name]`); first match wins. -/
def Table.getCol (t : Table) (n : String) : Option (List Cell) :=
  (t.cols.find? (fun c => c.1 == n)).map (fun c => c.2)

/-- Column assignment `df[name] = values`: replace the column in place if the
name exists, else append a new column at the end. -/
def Table.setCol (t : Table) (n : String) (vs : List Cell) : Table :=
  if t.colNames.contains n then
    { t with cols := t.cols.map (fun c => if c.1 == n then (n, vs) else c) }
  else
    { t with cols := t.cols ++ [(n, vs)] }

/-- Keep the entries of `xs` whose positional mask bit is `true`
(boolean-mask row selection). -/
def maskFilter (xs : List α) (m : List Bool) : List α :=
  ((xs.zip m).filter (fun p => p.2)).map (fun p => p.1)

/-- Boolean-mask row filtering `df[mask]`: keeps row labels and filters every
column by the same mask. -/
def Table.filterRows (t : Table) (m : List Bool) : Table :=
  { index := maskFilter t.index m,
    cols := t.cols.map (fun c => (c.1, maskFilter c.2 m)) }

/-- Column selection/reordering `df[list_of_names]` (all names assumed
present; absent names are silently skipped in the model, pandas would raise). -/
def Table.selectCols (t : Table) (ns : List String) : Table :=
  { index := t.index,
    cols := ns.filterMap (fun n =>
      (t.cols.find? (fun c => c.1 == n)).map (fun c => (n, c.2))) }

/-- Python `str.strip()` on ASCII whitespace (Python also strips other Unicode
whitespace; the model covers the ASCII range). -/
def pyTrim (s : String) : String :=
  String.mk (((s.toList.dropWhile Char.isWhitespace).reverse.dropWhile
    Char.isWhitespace).reverse)

/-- Python `str.strip('/')`: remove every leading and trailing slash. -/
def stripSlashes (s : String) : String :=
  String.mk (((s.toList.dropWhile (fun c => c == '/')).reverse.dropWhile
    (fun c => c == '/')).reverse)

/-- Python `str.split(sep)` for a single-character separator: splits on every
occurrence, keeping empty pieces; the empty string yields one empty piece. -/
def splitOnChar (sep : Char) : List Char → List (List Char)
  | [] => [[]]
  | c :: rest =>
    match splitOnChar sep rest with
    | [] => [[]]
    | h :: t => if c == sep then [] :: h :: t else (c :: h) :: t

/-- Python `s.split(sep)` on strings, single-character separator. -/
def pySplit (s : String) (sep : Char) : List String :=
  (splitOnChar sep s.toList).map String.mk

/-- ASCII lowercasing of a character list (models Python case-insensitive
matching, restricted to ASCII). -/
def lowerChars (cs : List Char) : List Char :=
  cs.map Char.toLower

/-- Substring containment on character lists (the needle occurs contiguously
in the haystack; the empty needle always matches, as in Python). -/
def hasSubstr (needle : List Char) : List Char → Bool
  | [] => needle.isEmpty
  | c :: rest => needle.isPrefixOf (c :: rest) || hasSubstr needle rest

/-- Case-insensitive literal containment: models
`Series.str.contains(re.escape(pat), case=False)` on a present string cell. -/
def containsCI (hay pat : String) : Bool :=
  hasSubstr (lowerChars pat.toList) (lowerChars hay.toList)

/-- The keyword list of `process_traffic_data` line 36: split the raw input on
commas, trim each piece, drop empty pieces. -/
def keywordList (s : String) : List String :=
  ((pySplit s ',').map pyTrim).filter (fun t => !(t == ""))

/-- Value of a hexadecimal digit, if the character is one. -/
def hexVal (c : Char) : Option Nat :=
  if '0' ≤ c ∧ c ≤ '9' then some (c.toNat - '0'.toNat)
  else if 'a' ≤ c ∧ c ≤ 'f' then some (c.toNat - 'a'.toNat + 10)
  else if 'A' ≤ c ∧ c ≤ 'F' then some (c.toNat - 'A'.toNat + 10)
  else none

/-- Percent-decoding as applied by `advertools.url_to_df(decode=True)` before
splitting the URL.  The model decodes `%XX` sequences in the ASCII range and
leaves other sequences untouched (Python additionally UTF-8-decodes non-ASCII
byte sequences, which none of the inputs considered here contain). -/
def pctDecode : List Char → List Char
  | [] => []
  | '%' :: a :: b :: rest =>
    match hexVal a, hexVal b with
    | some ha, some hb =>
      if ha * 16 + hb < 128 then Char.ofNat (ha * 16 + hb) :: pctDecode rest
      else '%' :: a :: b :: pctDecode rest
    | _, _ => '%' :: pctDecode (a :: b :: rest)
  | c :: rest => c :: pctDecode rest

/-- Characters allowed after the first character of a URL scheme
(`urllib.parse.scheme_chars`). -/
def schemeChar (c : Char) : Bool :=
  c.isAlpha || c.isDigit || c == '+' || c == '-' || c == '.'

/-- Drop a leading `scheme:` as `urllib.parse.urlsplit` does: a colon at
position `i ≥ 1` whose preceding characters form a valid scheme (initial
ASCII letter, then scheme characters). -/
def dropScheme (cs : List Char) : List Char :=
  let before := cs.takeWhile (fun c => !(c == ':'))
  if before.length < cs.length then
    match before with
    | [] => cs
    | c0 :: rest =>
      if c0.isAlpha && rest.all schemeChar then cs.drop (before.length + 1)
      else cs
  else cs

/-- Drop a leading `//netloc` as `urlsplit` does: only when the string starts
with `//`; the netloc extends to the first `/`, `?` or `#`, which is kept. -/
def dropNetloc (cs : List Char) : List Char :=
  match cs with
  | '/' :: '/' :: rest =>
    rest.dropWhile (fun c => !(c == '/' || c == '?' || c == '#'))
  | _ => cs

/-- The `path` component produced by `advertools.url_to_df` for one URL:
percent-decode, strip `scheme:` and `//netloc`, and cut at the first `?` or
`#` (query and fragment). -/
def urlPath (url : String) : String :=
  String.mk ((dropNetloc (dropScheme (pctDecode url.toList))).takeWhile
    (fun c => !(c == '?' || c == '#')))

/-- The two failure modes of `process_traffic_data` (it reports via
`st.error`/`st.warning` and returns `None`; the spec names them
`MissingColumnError` — carrying every missing required column, in order — and
`EmptyCriteriaError`). -/
inductive ProcErr where
  | missingColumns (cols : List String)
  | emptyCriteria
deriving DecidableEq

/-- Boolean value of a cell, `false` on anything but a present boolean. -/
def cellBool (c : Cell) : Bool :=
  match c with
  | some (Val.b v) => v
  | _ => false

/-- The `URL Match` column (line 45): case-insensitive literal containment of
the trimmed query in the string cell; NaN or non-string cells give `false`
(`na=False`, and `.str` methods yield NaN off strings). -/
def urlMatchVals (vals : List Cell) (q : String) : List Cell :=
  vals.map (fun c =>
    some (Val.b (match c with
      | some (Val.s v) => containsCI v (pyTrim q)
      | _ => false)))

/-- The `Translation Match` column (line 51): the joined alternation of
escaped keywords matches iff some keyword is a case-insensitive substring. -/
def kwMatchVals (vals : List Cell) (kws : List String) : List Cell :=
  vals.map (fun c =>
    some (Val.b (match c with
      | some (Val.s v) => kws.any (fun k => containsCI v k)
      | _ => false)))

/-- The category string assigned by lines 59-62: start from `"No Match"` and
let the three disjoint `.loc` masks overwrite it. -/
def categoryOfBools (u k : Bool) : String :=
  let c0 := "No Match"
  let c1 := if u && !k then "URL matches only" else c0
  let c2 := if !u && k then "Translation matches only" else c1
  if u && k then "Both matches" else c2

/-- The table after lines 44-53: the caller's `df` with the two boolean match
columns assigned (note: assigned on `df` itself, not on a copy).  When a
criterion is empty the whole column is the broadcast scalar `False`. -/
def dfWithMatches (df : Table) (urlCol kwCol urlQ : String)
    (kws : List String) : Table :=
  let df1 :=
    if pyTrim urlQ == "" then
      df.setCol "URL Match" (df.index.map (fun _ => some (Val.b false)))
    else
      df.setCol "URL Match" (urlMatchVals ((df.getCol urlCol).getD []) urlQ)
  if kws.isEmpty then
    df1.setCol "Translation Match" (df1.index.map (fun _ => some (Val.b false)))
  else
    df1.setCol "Translation Match" (kwMatchVals ((df1.getCol kwCol).getD []) kws)

/-- The table after line 62: `dfWithMatches` with the `Category` column
assigned from the two just-assigned boolean columns. -/
def dfClassified (df : Table) (urlCol kwCol urlQ : String)
    (kws : List String) : Table :=
  let df2 := dfWithMatches df urlCol kwCol urlQ kws
  df2.setCol "Category"
    ((((df2.getCol "URL Match").getD []).zip
        ((df2.getCol "Translation Match").getD [])).map
      (fun uv => some (Val.s (categoryOfBools (cellBool uv.1) (cellBool uv.2)))))

/-- The row mask of line 64, `df["Category"] != "No Match"`. -/
def keepMask (df3 : Table) : List Bool :=
  ((df3.getCol "Category").getD []).map
    (fun c => !(c == some (Val.s "No Match")))

/-- The column reordering of lines 67-75: compute the position of the keyword
column, remove the three derived columns from the name list, and re-insert
them just before that position. -/
def reorderCols (filtered : Table) (kwCol : String) : Table :=
  let cols := filtered.colNames
  if cols.contains kwCol then
    let idx := cols.findIdx (fun c => c == kwCol)
    let cols2 := ((cols.erase "URL Match").erase "Translation Match").erase
      "Category"
    filtered.selectCols
      (cols2.take idx ++ ["URL Match", "Translation Match", "Category"] ++
        cols2.drop idx)
  else filtered

/-- Model of `process_traffic_data` (lines 35-77).  The first component is the
caller's `df` as the function leaves it (the source assigns new columns to the
caller-owned frame in place); the second is the returned value, with the two
`return None` failures as the errors the spec names. -/
def processTrafficData (df : Table) (urlCol trafficCol kwCol urlQ kwQ : String) :
    Table × Except ProcErr Table :=
  let kws := keywordList kwQ
  let missing := [urlCol, trafficCol, kwCol].filter
    (fun c => !(df.colNames.contains c))
  if missing.isEmpty then
    let df2 := dfWithMatches df urlCol kwCol urlQ kws
    if pyTrim urlQ == "" && kws.isEmpty then
      (df2, Except.error ProcErr.emptyCriteria)
    else
      let df3 := dfClassified df urlCol kwCol urlQ kws
      let filtered := df3.filterRows (keepMask df3)
      (df3, Except.ok (reorderCols filtered kwCol))
  else
    (df, Except.error (ProcErr.missingColumns missing))

/-- Integer value of a cell, `none` on anything else (traffic cells are
numeric or NaN; sums are exact, as floats on integral data are). -/
def cellNum (c : Cell) : Option Int :=
  match c with
  | some (Val.num v) => some v
  | _ => none

/-- String value of a cell for URL parsing; after `fillna('')` the URL column
holds strings (a non-string URL cell would make `urlsplit` raise in Python
and is outside the model). -/
def cellUrlStr (c : Cell) : String :=
  match c with
  | some (Val.s v) => v
  | _ => ""

/-- Line 95, `fillna('')` on the URL column. -/
def fillNaEmpty (cs : List Cell) : List Cell :=
  cs.map (fun c =>
    match c with
    | none => some (Val.s "")
    | some v => some v)

/-- Stable insertion of `a` into `l`: `a` goes in front of the first element
it compares `le` to, hence after every earlier element with an equal key. -/
def insertBy (le : α → α → Bool) (a : α) : List α → List α
  | [] => [a]
  | b :: l => if le a b then a :: b :: l else b :: insertBy le a l

/-- Stable insertion sort by a boolean comparator. -/
def sortBy (le : α → α → Bool) : List α → List α
  | [] => []
  | a :: l => insertBy le a (sortBy le l)

/-- Lexicographic comparison of character lists by code point, as Python
compares the strings that are pandas group keys. -/
def charsLeB : List Char → List Char → Bool
  | [], _ => true
  | _ :: _, [] => false
  | a :: as, b :: bs =>
    a.toNat < b.toNat || (a.toNat == b.toNat && charsLeB as bs)

/-- Lexicographic (Python) order on strings. -/
def strLeB (a b : String) : Bool :=
  charsLeB a.toList b.toList

/-- Strict lexicographic order on strings. -/
def strLtB (a b : String) : Bool :=
  strLeB a b && !(a == b)

/-- Sorted union of two label lists: the index of `pd.concat(..., axis=1)`
with outer join on two monotone indexes. -/
def sortedUnion (a b : List Nat) : List Nat :=
  (sortBy (fun x y => x ≤ y) (a ++ b)).dedup

/-- Alignment performed by `pd.concat([analysis_df, url_df], axis=1)` (line
101): `analysis_df` carries the caller's row labels, `url_df` (built by
`adv.url_to_df` from a plain list of URLs) carries fresh labels `0..k-1`.
Each label of the union picks up the traffic cell and the parsed path that
happen to sit at that label, NaN (`none`) where a frame has no such label. -/
def alignedRows (labels : List Nat) (traffic : List Cell)
    (paths : List String) : List (Option Int × Option String) :=
  let a := labels.zip traffic
  let b := (List.range paths.length).zip paths
  (sortedUnion labels (List.range paths.length)).map
    (fun l => ((a.lookup l).bind cellNum, b.lookup l))

/-- Parsed path of every row of the URL column, in positional order (the
`path` column of `adv.url_to_df`, fed from the column after `fillna('')`). -/
def parsedPaths (df : Table) (urlCol : String) : List String :=
  (fillNaEmpty ((df.getCol urlCol).getD [])).map (fun c => urlPath (cellUrlStr c))

/-- The (traffic, path) pairs of the concatenated frame of line 101, one per
label of the aligned union index. -/
def combinedRows (df : Table) (urlCol trafficCol : String) :
    List (Option Int × Option String) :=
  alignedRows df.index ((df.getCol trafficCol).getD []) (parsedPaths df urlCol)

/-- Rows entering the full-path groupby (line 104): rows whose `path` cell is
not NaN (groupby drops NaN keys; the empty string is a normal key). -/
def fullPathRows (df : Table) (urlCol trafficCol : String) :
    List (Option Int × String) :=
  (combinedRows df urlCol trafficCol).filterMap
    (fun r => r.2.map (fun p => (r.1, p)))

/-- Pandas `sum` of a traffic column: NaN contributes nothing (an all-NaN
group sums to 0 under the default `min_count=0`). -/
def sumOpt (l : List (Option Int × String)) : Int :=
  l.foldl (fun acc r => acc + r.1.getD 0) 0

/-- Pandas `count` of a traffic column: only non-NaN cells are counted. -/
def countOpt (l : List (Option Int × String)) : Nat :=
  (l.filter (fun r => r.1.isSome)).length

/-- One row of the flattened full-path aggregate
(`Subfolder`, `Total Traffic`, `Number of URLs`). -/
structure AggRow where
  subfolder : String
  totalTraffic : Int
  numUrls : Nat
deriving DecidableEq

/-- `groupby(key).agg({traffic: [sum, count]}).reset_index()`: one output row
per distinct key, keys sorted lexicographically (pandas `sort=True` default),
with the skip-NaN sum and the non-NaN count of the group. -/
def groupByPath (rows : List (Option Int × String)) : List AggRow :=
  ((sortBy strLeB (rows.map (fun r => r.2))).dedup).map
    (fun k =>
      { subfolder := k,
        totalTraffic := sumOpt (rows.filter (fun r => r.2 == k)),
        numUrls := countOpt (rows.filter (fun r => r.2 == k)) })

/-- Descending stable sort by a traffic projection, modelling
`sort_values('Total Traffic', ascending=False)` (see the header note on
stability). -/
def sortDescBy (f : α → Int) (l : List α) : List α :=
  sortBy (fun a b => decide (f b ≤ f a)) l

/-- Lines 133-137, `create_progressive_paths`: NaN or empty path gives no
bucket; otherwise strip slashes, split on `/` (empty components included —
the root path `/` strips to `""` whose split is the single component `""`),
and emit one `/c1/…/ci/` bucket per depth `i`. -/
def createProgressivePaths (path : Option String) : List String :=
  match path with
  | none => []
  | some p =>
    if p == "" then []
    else
      let components := pySplit (stripSlashes p) '/'
      (List.range components.length).map
        (fun i => "/" ++ String.intercalate "/" (components.take (i + 1)) ++ "/")

/-- Lines 140-143: apply `create_progressive_paths` to the `path` cell of each
aligned row and explode; a row with an empty bucket list yields a NaN key row
that the subsequent groupby drops, so exploding is flat concatenation here. -/
def explodedRows (rows : List (Option Int × Option String)) :
    List (Option Int × String) :=
  rows.flatMap (fun r => (createProgressivePaths r.2).map (fun pp => (r.1, pp)))

/-- Round-half-even of the fraction `n / d` (for `d > 0`) to an integer:
numpy's rounding mode, computed exactly. -/
def roundHalfEvenFrac (n d : Int) : Int :=
  let q := Int.ediv n d
  let r := n - d * q
  if 2 * r < d then q
  else if d < 2 * r then q + 1
  else if q % 2 == 0 then q else q + 1

/-- Decimal rendering of `n`/100 hundredths for `n ≥ 0` as Python prints the
rounded float: trailing zeros dropped, at least one fractional digit kept. -/
def renderHundredthsNat (n : Nat) : String :=
  let ip := toString (n / 100)
  let fp := n % 100
  if fp == 0 then ip ++ ".0"
  else if fp % 10 == 0 then ip ++ "." ++ toString (fp / 10)
  else if fp < 10 then ip ++ ".0" ++ toString fp
  else ip ++ "." ++ toString fp

/-- Signed decimal rendering of `n` hundredths. -/
def renderHundredths (n : Int) : String :=
  if n < 0 then "-" ++ renderHundredthsNat n.natAbs
  else renderHundredthsNat n.natAbs

/-- Lines 158-163 for one bucket: `(x / total * 100).round(2)` rendered as
`f"{v}%"`.  In exact arithmetic the rounded hundredths of `x/total*100` are
`roundHalfEvenFrac (10000 * x) total`. -/
def pctString (x total : Int) : String :=
  renderHundredths (roundHalfEvenFrac (10000 * x) total) ++ "%"

/-- One row of the progressive aggregate
(`Subfolder`, `Total Traffic`, `Number of URLs`, `Traffic Split`, `URL Split`). -/
structure ProgRow where
  subfolder : String
  totalTraffic : Int
  numUrls : Nat
  trafficSplit : String
  urlSplit : String
deriving DecidableEq

/-- The grouped progressive aggregate before percentages and sorting
(lines 146-151). -/
def progGrouped (df : Table) (urlCol trafficCol : String) : List AggRow :=
  groupByPath (explodedRows (combinedRows df urlCol trafficCol))

/-- Line 154: the grand total of `Total Traffic` over all progressive
buckets, computed on the grouped (unsorted) aggregate. -/
def progTotalTraffic (df : Table) (urlCol trafficCol : String) : Int :=
  ((progGrouped df urlCol trafficCol).map AggRow.totalTraffic).sum

/-- Line 155: the grand total of `Number of URLs` over all progressive
buckets. -/
def progTotalUrls (df : Table) (urlCol trafficCol : String) : Nat :=
  ((progGrouped df urlCol trafficCol).map AggRow.numUrls).sum

/-- Lines 158-163: the grouped progressive aggregate with the two formatted
percentage columns, denominators taken over all buckets, before the final
sort. -/
def progWithSplits (df : Table) (urlCol trafficCol : String) : List ProgRow :=
  (progGrouped df urlCol trafficCol).map (fun a =>
    { subfolder := a.subfolder, totalTraffic := a.totalTraffic,
      numUrls := a.numUrls,
      trafficSplit := pctString a.totalTraffic
        (progTotalTraffic df urlCol trafficCol),
      urlSplit := pctString (a.numUrls : Int)
        ((progTotalUrls df urlCol trafficCol : Nat) : Int) })

/-- Model of `analyze_subfolders` (lines 90-168): the full-path aggregate and
the progressive aggregate, both sorted descending by summed traffic at the
very end (lines 112 and 166).  (Lines 115-130 build an intermediate
`progressive_df` that the function never uses; it has no counterpart here.) -/
def analyzeSubfolders (df : Table) (urlCol trafficCol : String) :
    List AggRow × List ProgRow :=
  (sortDescBy AggRow.totalTraffic
    (groupByPath (fullPathRows df urlCol trafficCol)),
   sortDescBy ProgRow.totalTraffic (progWithSplits df urlCol trafficCol))

instance [DecidableEq e] [DecidableEq a] : DecidableEq (Except e a) := fun x y =>
  match x, y with
  | Except.ok v, Except.ok w =>
    if h : v = w then isTrue (by rw [h]) else isFalse (fun hh => h (Except.ok.inj hh))
  | Except.error v, Except.error w =>
    if h : v = w then isTrue (by rw [h]) else isFalse (fun hh => h (Except.error.inj hh))
  | Except.ok _, Except.error _ => isFalse (fun hh => Except.noConfusion hh)
  | Except.error _, Except.ok _ => isFalse (fun hh => Except.noConfusion hh)

/-- Ordering actually delivered by the aggregate sort: strictly more traffic
first, and among equal-traffic entries the lexicographically smaller path
first (the order the groupby key sort left them in). -/
def aggOrdered (x y : AggRow) : Prop :=
  y.totalTraffic < x.totalTraffic ∨
    (x.totalTraffic = y.totalTraffic ∧ strLtB x.subfolder y.subfolder = true)

/-- The same ordering on progressive-aggregate rows. -/
def progOrdered (x y : ProgRow) : Prop :=
  y.totalTraffic < x.totalTraffic ∨
    (x.totalTraffic = y.totalTraffic ∧ strLtB x.subfolder y.subfolder = true)

/-- Example upload: three rows, labels 0-2, of which the middle row matches no
criterion. -/
def exUpload : Table :=
  { index := [0, 1, 2],
    cols := [("Ranking URL",
                [some (Val.s "https://s.com/a"), some (Val.s "https://s.com/x"),
                 some (Val.s "https://s.com/b")]),
             ("Traffic Index",
                [some (Val.num 10), some (Val.num 99), some (Val.num 7)]),
             ("Translation",
                [some (Val.s "compressor"), some (Val.s "nothing"),
                 some (Val.s "compressor")])] }

/-- The FilteredTable `process_traffic_data` produces from `exUpload` with an
empty URL query and keyword `compressor`: rows 0 and 2 survive and keep their
original labels 0 and 2 — the gap at label 1 is what the aggregator's
`pd.concat` alignment then trips over. -/
def exFilteredGap : Table :=
  { index := [0, 2],
    cols := [("Ranking URL",
                [some (Val.s "https://s.com/a"), some (Val.s "https://s.com/b")]),
             ("Traffic Index", [some (Val.num 10), some (Val.num 7)]),
             ("URL Match", [some (Val.b false), some (Val.b false)]),
             ("Translation Match", [some (Val.b true), some (Val.b true)]),
             ("Category",
                [some (Val.s "Translation matches only"),
                 some (Val.s "Translation matches only")]),
             ("Translation",
                [some (Val.s "compressor"), some (Val.s "compressor")])] }

/-- Example upload: one row, URL with a two-segment path, matching both
criteria. -/
def exSimple : Table :=
  { index := [0],
    cols := [("Ranking URL", [some (Val.s "https://s.com/compressors/small")]),
             ("Traffic Index", [some (Val.num 10)]),
             ("Translation", [some (Val.s "compressor")])] }

/-- Example table whose only row has a missing (NaN) URL and traffic 7. -/
def exNanUrl : Table :=
  { index := [0],
    cols := [("Ranking URL", [none]),
             ("Traffic Index", [some (Val.num 7)]),
             ("Translation", [some (Val.s "compressor")])] }

/-- Example upload that already owns a column named `Category` (value
`"orig"`), colliding with a derived column name. -/
def exCollide : Table :=
  { index := [0],
    cols := [("Ranking URL", [some (Val.s "https://s.com/a")]),
             ("Traffic Index", [some (Val.num 1)]),
             ("Category", [some (Val.s "orig")]),
             ("Translation", [some (Val.s "hello")])] }

/-- Example table with two equal-traffic rows whose paths arrive in the order
`/b`, `/a` (first seen `/b`). -/
def exTie : Table :=
  { index := [0, 1],
    cols := [("Ranking URL",
                [some (Val.s "https://s.com/b"), some (Val.s "https://s.com/a")]),
             ("Traffic Index", [some (Val.num 5), some (Val.num 5)]),
             ("Translation", [some (Val.s "k"), some (Val.s "k")])] }

/-- Example table with two rows in the same path group, one of them with NaN
traffic. -/
def exNanTraffic : Table :=
  { index := [0, 1],
    cols := [("Ranking URL",
                [some (Val.s "https://s.com/a"), some (Val.s "https://s.com/a")]),
             ("Traffic Index", [some (Val.num 10), none]),
             ("Translation", [some (Val.s "k"), some (Val.s "k")])] }

/-- The FilteredTable `process_traffic_data` produces from `exSimple` with URL
query `/compressors` and keyword `compressor`. -/
def exSimpleOut : Table :=
  { index := [0],
    cols := [("Ranking URL", [some (Val.s "https://s.com/compressors/small")]),
             ("Traffic Index", [some (Val.num 10)]),
             ("URL Match", [some (Val.b true)]),
             ("Translation Match", [some (Val.b true)]),
             ("Category", [some (Val.s "Both matches")]),
             ("Translation", [some (Val.s "compressor")])] }

/-- The FilteredTable `process_traffic_data` produces from `exCollide` with URL
query `/a` and no keywords: the pre-existing `Category` value is gone. -/
def exCollideOut : Table :=
  { index := [0],
    cols := [("Ranking URL", [some (Val.s "https://s.com/a")]),
             ("Traffic Index", [some (Val.num 1)]),
             ("Translation", [some (Val.s "hello")]),
             ("URL Match", [some (Val.b true)]),
             ("Translation Match", [some (Val.b false)]),
             ("Category", [some (Val.s "URL matches only")])] }

/-- Example table owning none of the three required columns. -/
def exBare : Table :=
  { index := [0], cols := [("A", [some (Val.num 1)])] }

/-! Lemmas about the table primitives. -/

theorem index_setCol (t : Table) (n : String) (vs : List Cell) :
    (t.setCol n vs).index = t.index := by
  unfold Table.setCol
  split <;> rfl

theorem findSet_self (cols : List (String × List Cell)) (n : String)
    (vs : List Cell) (h : (cols.map (fun c => c.1)).contains n = true) :
    (cols.map (fun c => if c.1 == n then (n, vs) else c)).find?
      (fun c => c.1 == n) = some (n, vs) := by
  induction cols with
  | nil => simp at h
  | cons c cs ih =>
    simp only [List.map_cons]
    by_cases hc : (c.1 == n) = true
    · rw [if_pos hc]
      simp [List.find?]
    · rw [if_neg hc]
      have hc1 : (c.1 == n) = false := by simpa using hc
      simp only [List.find?, hc1]
      apply ih
      have hc2 : (n == c.1) = false :=
        beq_eq_false_iff_ne.mpr (fun e => (beq_eq_false_iff_ne.mp hc1) e.symm)
      simpa [List.contains_cons, hc2] using h

theorem findSet_ne (cols : List (String × List Cell)) (n m : String)
    (vs : List Cell) (hnm : m ≠ n) :
    (cols.map (fun c => if c.1 == n then (n, vs) else c)).find?
      (fun c => c.1 == m) = cols.find? (fun c => c.1 == m) := by
  induction cols with
  | nil => rfl
  | cons c cs ih =>
    simp only [List.map_cons]
    by_cases hc : (c.1 == n) = true
    · rw [if_pos hc]
      have hcn : c.1 = n := beq_iff_eq.mp hc
      have h1 : (n == m) = false := beq_eq_false_iff_ne.mpr (fun e => hnm e.symm)
      have h2 : (c.1 == m) = false := by rw [hcn]; exact h1
      simp only [List.find?, h1, h2]
      exact ih
    · rw [if_neg hc]
      by_cases hm : (c.1 == m) = true
      · simp only [List.find?, hm]
      · have hm1 : (c.1 == m) = false := by simpa using hm
        simp only [List.find?, hm1]
        exact ih

theorem find_none_of_not_contains (cols : List (String × List Cell)) (n : String)
    (h : (cols.map (fun c => c.1)).contains n = false) :
    cols.find? (fun c => c.1 == n) = none := by
  induction cols with
  | nil => rfl
  | cons c cs ih =>
    simp only [List.map_cons, List.contains_cons, Bool.or_eq_false_iff] at h
    have hc : (c.1 == n) = false :=
      beq_eq_false_iff_ne.mpr (fun e => (beq_eq_false_iff_ne.mp h.1) e.symm)
    simp only [List.find?, hc]
    exact ih h.2

theorem getCol_setCol_self (t : Table) (n : String) (vs : List Cell) :
    (t.setCol n vs).getCol n = some vs := by
  unfold Table.setCol Table.getCol Table.colNames
  by_cases h : (t.cols.map (fun c => c.1)).contains n = true
  · rw [if_pos h]
    show ((t.cols.map (fun c => if c.1 == n then (n, vs) else c)).find?
      (fun c => c.1 == n)).map (fun c => c.2) = some vs
    rw [findSet_self t.cols n vs h]
    rfl
  · rw [if_neg h]
    show ((t.cols ++ [(n, vs)]).find? (fun c => c.1 == n)).map (fun c => c.2)
      = some vs
    rw [List.find?_append, find_none_of_not_contains t.cols n (by simpa using h)]
    have hs : List.find? (fun c => c.1 == n) [(n, vs)] = some (n, vs) := by
      simp [List.find?]
    rw [Option.none_or, hs]
    rfl

theorem getCol_setCol_ne (t : Table) (n m : String) (vs : List Cell)
    (hnm : m ≠ n) : (t.setCol n vs).getCol m = t.getCol m := by
  unfold Table.setCol Table.getCol Table.colNames
  by_cases h : (t.cols.map (fun c => c.1)).contains n = true
  · rw [if_pos h]
    show ((t.cols.map (fun c => if c.1 == n then (n, vs) else c)).find?
      (fun c => c.1 == m)).map (fun c => c.2)
      = (t.cols.find? (fun c => c.1 == m)).map (fun c => c.2)
    rw [findSet_ne t.cols n m vs hnm]
  · rw [if_neg h]
    show ((t.cols ++ [(n, vs)]).find? (fun c => c.1 == m)).map (fun c => c.2)
      = (t.cols.find? (fun c => c.1 == m)).map (fun c => c.2)
    have h1 : (n == m) = false := beq_eq_false_iff_ne.mpr (fun e => hnm e.symm)
    have hs : List.find? (fun c => c.1 == m) [(n, vs)] = none := by
      simp [List.find?, h1]
    rw [List.find?_append, hs, Option.or_none]

theorem colNames_setCol_of_not_mem (t : Table) (n : String) (vs : List Cell)
    (h : ¬ n ∈ t.colNames) : (t.setCol n vs).colNames = t.colNames ++ [n] := by
  have hc : ¬ (t.colNames.contains n = true) := by
    simpa using h
  unfold Table.setCol
  rw [if_neg (by simpa [Table.colNames] using hc)]
  show (t.cols ++ [(n, vs)]).map (fun c => c.1) = t.cols.map (fun c => c.1) ++ [n]
  simp

theorem find_isSome_of_mem (cols : List (String × List Cell)) (n : String)
    (h : n ∈ cols.map (fun c => c.1)) :
    (cols.find? (fun c => c.1 == n)).isSome = true := by
  induction cols with
  | nil => simp at h
  | cons c cs ih =>
    by_cases hc : (c.1 == n) = true
    · simp [List.find?, hc]
    · have hc1 : (c.1 == n) = false := by simpa using hc
      simp only [List.find?, hc1]
      apply ih
      simp only [List.map_cons, List.mem_cons] at h
      rcases h with h1 | h1
      · exact absurd h1.symm (beq_eq_false_iff_ne.mp hc1)
      · exact h1

theorem getCol_isSome_of_mem (t : Table) (n : String) (h : n ∈ t.colNames) :
    (t.getCol n).isSome = true := by
  unfold Table.getCol
  have hf := find_isSome_of_mem t.cols n (by simpa [Table.colNames] using h)
  cases hfe : t.cols.find? (fun c => c.1 == n) with
  | none => rw [hfe] at hf; simp at hf
  | some c => rfl

theorem index_filterRows (t : Table) (m : List Bool) :
    (t.filterRows m).index = maskFilter t.index m := rfl

theorem colNames_filterRows (t : Table) (m : List Bool) :
    (t.filterRows m).colNames = t.colNames := by
  simp [Table.filterRows, Table.colNames]

theorem getCol_filterRows (t : Table) (m : List Bool) (x : String) :
    (t.filterRows m).getCol x = (t.getCol x).map (fun vs => maskFilter vs m) := by
  unfold Table.filterRows Table.getCol
  show ((t.cols.map (fun c => (c.1, maskFilter c.2 m))).find?
    (fun c => c.1 == x)).map (fun c => c.2)
    = ((t.cols.find? (fun c => c.1 == x)).map (fun c => c.2)).map
      (fun vs => maskFilter vs m)
  rw [List.find?_map]
  have hp : ((fun c : String × List Cell => c.1 == x) ∘
      (fun c : String × List Cell => (c.1, maskFilter c.2 m))) =
      (fun c : String × List Cell => c.1 == x) := rfl
  rw [hp]
  cases t.cols.find? (fun c => c.1 == x) <;> rfl

theorem index_selectCols (t : Table) (ns : List String) :
    (t.selectCols ns).index = t.index := rfl

theorem find_selectList_none (cols : List (String × List Cell))
    (ns : List String) (x : String)
    (h : cols.find? (fun c => c.1 == x) = none) :
    (ns.filterMap (fun n => (cols.find? (fun c => c.1 == n)).map
      (fun c => (n, c.2)))).find? (fun c => c.1 == x) = none := by
  induction ns with
  | nil => rfl
  | cons n ns ih =>
    simp only [List.filterMap_cons]
    cases hf : cols.find? (fun c => c.1 == n) with
    | none => exact ih
    | some c =>
      have hnx : (n == x) = false := by
        by_cases he : n = x
        · rw [he] at hf; rw [hf] at h; exact absurd h (by simp)
        · exact beq_eq_false_iff_ne.mpr he
      simp only [Option.map, List.find?, hnx]
      exact ih

theorem find_selectList_mem (cols : List (String × List Cell))
    (ns : List String) (x : String) (hx : x ∈ ns) :
    (ns.filterMap (fun n => (cols.find? (fun c => c.1 == n)).map
      (fun c => (n, c.2)))).find? (fun c => c.1 == x)
    = (cols.find? (fun c => c.1 == x)).map (fun c => (x, c.2)) := by
  induction ns with
  | nil => simp at hx
  | cons n ns ih =>
    simp only [List.filterMap_cons]
    by_cases hnx : n = x
    · subst hnx
      cases hf : cols.find? (fun c => c.1 == n) with
      | none =>
        simp only [Option.map]
        exact find_selectList_none cols ns n hf
      | some c =>
        simp only [Option.map, List.find?, beq_self_eq_true]
    · have hx2 : x ∈ ns := by
        rcases List.mem_cons.mp hx with h1 | h1
        · exact absurd h1.symm hnx
        · exact h1
      cases hf : cols.find? (fun c => c.1 == n) with
      | none => exact ih hx2
      | some c =>
        have hb : (n == x) = false := beq_eq_false_iff_ne.mpr hnx
        simp only [Option.map, List.find?, hb]
        exact ih hx2

theorem getCol_selectCols_mem (t : Table) (ns : List String) (x : String)
    (hx : x ∈ ns) : (t.selectCols ns).getCol x = t.getCol x := by
  unfold Table.selectCols Table.getCol
  show ((ns.filterMap (fun n => (t.cols.find? (fun c => c.1 == n)).map
      (fun c => (n, c.2)))).find? (fun c => c.1 == x)).map (fun c => c.2)
    = (t.cols.find? (fun c => c.1 == x)).map (fun c => c.2)
  rw [find_selectList_mem t.cols ns x hx]
  cases t.cols.find? (fun c => c.1 == x) <;> rfl

theorem colNames_selectCols (t : Table) (ns : List String)
    (h : ∀ n ∈ ns, (t.getCol n).isSome = true) :
    (t.selectCols ns).colNames = ns := by
  unfold Table.selectCols Table.colNames
  induction ns with
  | nil => rfl
  | cons n ns ih =>
    have hn := h n (List.mem_cons_self n ns)
    unfold Table.getCol at hn
    simp only [List.filterMap_cons]
    cases hf : t.cols.find? (fun c => c.1 == n) with
    | none => rw [hf] at hn; simp at hn
    | some c =>
      simp only [Option.map, List.map_cons]
      exact congrArg (fun l => n :: l)
        (ih (fun m hm => h m (List.mem_cons_of_mem n hm)))

theorem mem_maskFilter_map (p : α → Bool) (xs : List α) (x : α)
    (h : x ∈ maskFilter xs (xs.map p)) : p x = true := by
  induction xs with
  | nil => simp [maskFilter] at h
  | cons a as ih =>
    by_cases hpa : p a = true
    · simp only [maskFilter, List.map_cons, List.zip_cons_cons, List.filter_cons,
        hpa, if_true] at h
      rcases List.mem_cons.mp h with h1 | h1
      · rw [h1]; exact hpa
      · exact ih (by simpa [maskFilter] using h1)
    · have hpa1 : p a = false := by simpa using hpa
      simp only [maskFilter, List.map_cons, List.zip_cons_cons, List.filter_cons,
        hpa1, Bool.false_eq_true, if_false] at h
      exact ih (by simpa [maskFilter] using h)

/-! Lemmas about the insertion sort and the string comparator. -/

theorem perm_insertBy (le : α → α → Bool) (a : α) (l : List α) :
    (insertBy le a l).Perm (a :: l) := by
  induction l with
  | nil => exact List.Perm.refl _
  | cons b l ih =>
    unfold insertBy
    by_cases h : le a b = true
    · rw [if_pos h]
    · rw [if_neg h]
      exact (ih.cons b).trans (List.Perm.swap a b l)

theorem perm_sortBy (le : α → α → Bool) (l : List α) :
    (sortBy le l).Perm l := by
  induction l with
  | nil => exact List.Perm.refl _
  | cons a l ih =>
    exact (perm_insertBy le a (sortBy le l)).trans (ih.cons a)

theorem mem_insertBy (le : α → α → Bool) (a x : α) (l : List α) :
    x ∈ insertBy le a l ↔ x = a ∨ x ∈ l := by
  rw [(perm_insertBy le a l).mem_iff, List.mem_cons]

theorem mem_sortBy (le : α → α → Bool) (x : α) (l : List α) :
    x ∈ sortBy le l ↔ x ∈ l :=
  (perm_sortBy le l).mem_iff

theorem pairwise_insertBy (le : α → α → Bool)
    (htot : ∀ a b, le a b = true ∨ le b a = true)
    (htr : ∀ a b c, le a b = true → le b c = true → le a c = true)
    (a : α) (l : List α) (h : List.Pairwise (fun x y => le x y = true) l) :
    List.Pairwise (fun x y => le x y = true) (insertBy le a l) := by
  induction l with
  | nil => simp [insertBy]
  | cons b l ih =>
    rcases List.pairwise_cons.mp h with ⟨hb, hl⟩
    unfold insertBy
    by_cases hab : le a b = true
    · rw [if_pos hab]
      refine List.pairwise_cons.mpr ⟨?_, h⟩
      intro y hy
      rcases List.mem_cons.mp hy with h1 | h1
      · rw [h1]; exact hab
      · exact htr a b y hab (hb y h1)
    · rw [if_neg hab]
      refine List.pairwise_cons.mpr ⟨?_, ih hl⟩
      intro y hy
      rcases (mem_insertBy le a y l).mp hy with h1 | h1
      · rw [h1]
        rcases htot a b with h2 | h2
        · exact absurd h2 hab
        · exact h2
      · exact hb y h1

theorem pairwise_sortBy (le : α → α → Bool)
    (htot : ∀ a b, le a b = true ∨ le b a = true)
    (htr : ∀ a b c, le a b = true → le b c = true → le a c = true)
    (l : List α) :
    List.Pairwise (fun x y => le x y = true) (sortBy le l) := by
  induction l with
  | nil => simp [sortBy]
  | cons a l ih => exact pairwise_insertBy le htot htr a (sortBy le l) ih

theorem charsLeB_total (a b : List Char) :
    charsLeB a b = true ∨ charsLeB b a = true := by
  induction a generalizing b with
  | nil => left; rfl
  | cons x xs ih =>
    cases b with
    | nil => right; rfl
    | cons y ys =>
      rcases Nat.lt_trichotomy x.toNat y.toNat with h | h | h
      · left; simp [charsLeB, h]
      · rcases ih ys with h2 | h2
        · left; simp [charsLeB, h, h2]
        · right; simp [charsLeB, h.symm, h2]
      · right; simp [charsLeB, h]

theorem charsLeB_trans (a b c : List Char) (h1 : charsLeB a b = true)
    (h2 : charsLeB b c = true) : charsLeB a c = true := by
  induction a generalizing b c with
  | nil => rfl
  | cons x xs ih =>
    cases b with
    | nil => simp [charsLeB] at h1
    | cons y ys =>
      cases c with
      | nil => simp [charsLeB] at h2
      | cons z zs =>
        simp only [charsLeB, Bool.or_eq_true, Bool.and_eq_true, beq_iff_eq,
          decide_eq_true_eq] at h1 h2 ⊢
        rcases h1 with h1 | ⟨h1e, h1r⟩
        · rcases h2 with h2 | ⟨h2e, h2r⟩
          · exact Or.inl (h1.trans h2)
          · exact Or.inl (h2e ▸ h1)
        · rcases h2 with h2 | ⟨h2e, h2r⟩
          · exact Or.inl (h1e ▸ h2)
          · exact Or.inr ⟨h1e.trans h2e, ih ys zs h1r h2r⟩

theorem strLeB_total (a b : String) : strLeB a b = true ∨ strLeB b a = true :=
  charsLeB_total a.toList b.toList

theorem strLeB_trans (a b c : String) (h1 : strLeB a b = true)
    (h2 : strLeB b c = true) : strLeB a c = true :=
  charsLeB_trans a.toList b.toList c.toList h1 h2

/-! Stability of the descending sort over key-sorted input, and groupby facts. -/

theorem pairwise_insertDesc (kf : α → Int) (sf : α → String) (a : α)
    (acc : List α)
    (hacc : List.Pairwise (fun x y =>
      kf y < kf x ∨ (kf x = kf y ∧ strLtB (sf x) (sf y) = true)) acc)
    (ha : ∀ y ∈ acc, strLtB (sf a) (sf y) = true) :
    List.Pairwise (fun x y =>
      kf y < kf x ∨ (kf x = kf y ∧ strLtB (sf x) (sf y) = true))
      (insertBy (fun x y => decide (kf y ≤ kf x)) a acc) := by
  induction acc with
  | nil => simp [insertBy]
  | cons b acc ih =>
    rcases List.pairwise_cons.mp hacc with ⟨hb, hrest⟩
    unfold insertBy
    by_cases hab : decide (kf b ≤ kf a) = true
    · rw [if_pos hab]
      have hba : kf b ≤ kf a := of_decide_eq_true hab
      refine List.pairwise_cons.mpr ⟨?_, hacc⟩
      intro y hy
      rcases List.mem_cons.mp hy with h1 | h1
      · rw [h1]
        rcases lt_or_eq_of_le hba with h2 | h2
        · exact Or.inl h2
        · exact Or.inr ⟨h2.symm, ha b (List.mem_cons_self b acc)⟩
      · rcases hb y h1 with h2 | h2
        · exact Or.inl (h2.trans_le hba)
        · rcases lt_or_eq_of_le hba with h3 | h3
          · exact Or.inl (by rw [← h2.1]; exact h3)
          · exact Or.inr ⟨h3.symm.trans h2.1, ha y (List.mem_cons_of_mem b h1)⟩
    · rw [if_neg hab]
      have hab2 : kf a < kf b :=
        lt_of_not_le (fun hle => hab (decide_eq_true hle))
      refine List.pairwise_cons.mpr
        ⟨?_, ih hrest (fun y hy => ha y (List.mem_cons_of_mem b hy))⟩
      intro y hy
      rcases (mem_insertBy _ a y acc).mp hy with h1 | h1
      · rw [h1]; exact Or.inl hab2
      · exact hb y h1

theorem pairwise_sortDescBy (kf : α → Int) (sf : α → String) (l : List α)
    (h : List.Pairwise (fun x y => strLtB (sf x) (sf y) = true) l) :
    List.Pairwise (fun x y =>
      kf y < kf x ∨ (kf x = kf y ∧ strLtB (sf x) (sf y) = true))
      (sortDescBy kf l) := by
  induction l with
  | nil => simp [sortDescBy, sortBy]
  | cons a l ih =>
    rcases List.pairwise_cons.mp h with ⟨ha, hl⟩
    unfold sortDescBy sortBy
    exact pairwise_insertDesc kf sf a _ (ih hl)
      (fun y hy => ha y ((mem_sortBy _ y l).mp hy))

theorem mem_groupByPath (rows : List (Option Int × String)) (e : AggRow)
    (he : e ∈ groupByPath rows) :
    e.totalTraffic = sumOpt (rows.filter (fun r => r.2 == e.subfolder)) ∧
    e.numUrls = countOpt (rows.filter (fun r => r.2 == e.subfolder)) := by
  unfold groupByPath at he
  rcases List.mem_map.mp he with ⟨k, hk, he2⟩
  rw [← he2]
  exact ⟨rfl, rfl⟩

theorem pairwise_key_groupByPath (rows : List (Option Int × String)) :
    List.Pairwise (fun x y : AggRow => strLtB x.subfolder y.subfolder = true)
      (groupByPath rows) := by
  unfold groupByPath
  rw [List.pairwise_map]
  have h1 : List.Pairwise (fun a b => strLeB a b = true)
      ((sortBy strLeB (rows.map (fun r => r.2))).dedup) :=
    List.Pairwise.sublist (List.dedup_sublist _)
      (pairwise_sortBy strLeB strLeB_total strLeB_trans _)
  have h2 : List.Pairwise (fun a b : String => a ≠ b)
      ((sortBy strLeB (rows.map (fun r => r.2))).dedup) :=
    List.nodup_dedup _
  refine (h1.and h2).imp ?_
  intro a b hab
  show strLtB a b = true
  unfold strLtB
  rw [hab.1, beq_eq_false_iff_ne.mpr hab.2]
  rfl

theorem sum_map_sortDescBy (kf : α → Int) (g : α → Int) (l : List α) :
    ((sortDescBy kf l).map g).sum = (l.map g).sum :=
  ((perm_sortBy _ l).map g).sum_eq

/-! Facts about the classified frame and the reordering step. -/

theorem getCol_dfClassified_cat (df : Table) (urlCol kwCol urlQ : String)
    (kws : List String) :
    (dfClassified df urlCol kwCol urlQ kws).getCol "Category" =
      some (((((dfWithMatches df urlCol kwCol urlQ kws).getCol
          "URL Match").getD []).zip
        (((dfWithMatches df urlCol kwCol urlQ kws).getCol
          "Translation Match").getD [])).map
        (fun uv => some (Val.s (categoryOfBools (cellBool uv.1)
          (cellBool uv.2))))) := by
  unfold dfClassified
  exact getCol_setCol_self _ _ _

theorem getCol_reorderCols_cat (filtered : Table) (kwCol : String) :
    (reorderCols filtered kwCol).getCol "Category" =
      filtered.getCol "Category" := by
  unfold reorderCols
  by_cases h : filtered.colNames.contains kwCol = true
  · rw [if_pos h]
    apply getCol_selectCols_mem
    simp
  · rw [if_neg h]

/-- C1: the derived category is a pure function of the two match booleans with
precedence Both (both true), then UrlOnly (url and not keyword), then
KeywordOnly (keyword and not url), then NoMatch; and no row of the
FilteredTable returned by `process_traffic_data` carries category
`"No Match"`. -/
theorem claim_C1 :
    (∀ u k, categoryOfBools u k =
      (if u && k then "Both matches"
       else if u then "URL matches only"
       else if k then "Translation matches only"
       else "No Match")) ∧
    (∀ df urlCol trafficCol kwCol urlQ kwQ out,
      (processTrafficData df urlCol trafficCol kwCol urlQ kwQ).2 =
        Except.ok out →
      ∀ c ∈ (out.getCol "Category").getD [],
        ¬ c = some (Val.s "No Match")) := by
  constructor
  · intro u k
    cases u <;> cases k <;> rfl
  · intro df urlCol trafficCol kwCol urlQ kwQ out hok
    simp only [processTrafficData] at hok
    by_cases hm : ([urlCol, trafficCol, kwCol].filter
        (fun c => !(df.colNames.contains c))).isEmpty = true
    case neg =>
      rw [if_neg hm] at hok
      simp at hok
    case pos =>
    rw [if_pos hm] at hok
    by_cases hcrit : (pyTrim urlQ == "" && (keywordList kwQ).isEmpty) = true
    case pos =>
      rw [if_pos hcrit] at hok
      simp at hok
    case neg =>
    rw [if_neg hcrit] at hok
    have hout : Except.ok (reorderCols
        ((dfClassified df urlCol kwCol urlQ (keywordList kwQ)).filterRows
          (keepMask (dfClassified df urlCol kwCol urlQ (keywordList kwQ))))
        kwCol) = Except.ok out := hok
    have hout2 := Except.ok.inj hout
    subst hout2
    intro c hc
    rw [getCol_reorderCols_cat, getCol_filterRows] at hc
    unfold keepMask at hc
    rw [getCol_dfClassified_cat] at hc
    simp only [Option.map, Option.getD] at hc
    have hp := mem_maskFilter_map _ _ _ hc
    exact beq_eq_false_iff_ne.mp (by simpa using hp)

/-- Witness for C1 at a concrete run: both booleans true give category
`"Both matches"`, and the concrete FilteredTable of `exSimple` carries no
`"No Match"` category cell. -/
theorem claim_C1_witness :
    categoryOfBools true true = "Both matches" ∧
    ∀ c ∈ (exSimpleOut.getCol "Category").getD [],
      ¬ c = some (Val.s "No Match") := by
  constructor
  · exact (claim_C1.1 true true).trans (by decide)
  · exact claim_C1.2 exSimple "Ranking URL" "Traffic Index" "Translation"
      "/compressors" "compressor" exSimpleOut (by decide)

/-- C2 (code-bug evidence): from the upload `exUpload` with keyword
`compressor` the classifier returns `exFilteredGap` (row labels 0 and 2), and
`analyze_subfolders` then reports the full-path aggregate
`[(/a, 10, 1), (/b, 0, 0)]` — the traffic 7 of the row whose URL parses to
`/b` is attributed to no path (its label 2 exceeds the fresh `0..1` index of
`url_to_df`, so `pd.concat` pairs it with a NaN path), and the `/b` group is
fed only the NaN-traffic filler row of label 1, violating the claim that
`/b` shows the sum 7 over 1 URL. -/
theorem claim_C2 :
    (processTrafficData exUpload "Ranking URL" "Traffic Index" "Translation"
        "" "compressor").2 = Except.ok exFilteredGap ∧
    (analyzeSubfolders exFilteredGap "Ranking URL" "Traffic Index").1 =
      [⟨"/a", 10, 1⟩, ⟨"/b", 0, 0⟩] :=
  ⟨by decide, by decide⟩

/-! Frame lemmas for the classifier: what it does to the caller's table. -/

theorem index_dfWithMatches (df : Table) (urlCol kwCol urlQ : String)
    (kws : List String) :
    (dfWithMatches df urlCol kwCol urlQ kws).index = df.index := by
  simp only [dfWithMatches]
  split <;> split <;> simp [index_setCol]

theorem colNames_dfWithMatches (df : Table) (urlCol kwCol urlQ : String)
    (kws : List String) (h1 : ¬ "URL Match" ∈ df.colNames)
    (h2 : ¬ "Translation Match" ∈ df.colNames) :
    (dfWithMatches df urlCol kwCol urlQ kws).colNames =
      df.colNames ++ ["URL Match", "Translation Match"] := by
  have hne : ¬ ("Translation Match" : String) = "URL Match" := by decide
  simp only [dfWithMatches]
  split <;> split <;>
  · rw [colNames_setCol_of_not_mem _ _ _
      (by
        intro hx
        rw [colNames_setCol_of_not_mem _ _ _ h1] at hx
        rcases List.mem_append.mp hx with hx | hx
        · exact h2 hx
        · exact hne (List.mem_singleton.mp hx)),
      colNames_setCol_of_not_mem _ _ _ h1, List.append_assoc]
    rfl

theorem getCol_dfWithMatches_ne (df : Table) (urlCol kwCol urlQ : String)
    (kws : List String) (n : String) (hn1 : n ≠ "URL Match")
    (hn2 : n ≠ "Translation Match") :
    (dfWithMatches df urlCol kwCol urlQ kws).getCol n = df.getCol n := by
  simp only [dfWithMatches]
  split <;> split <;>
    rw [getCol_setCol_ne _ _ _ _ hn2, getCol_setCol_ne _ _ _ _ hn1]

theorem index_dfClassified (df : Table) (urlCol kwCol urlQ : String)
    (kws : List String) :
    (dfClassified df urlCol kwCol urlQ kws).index = df.index := by
  simp only [dfClassified]
  rw [index_setCol, index_dfWithMatches]

theorem colNames_dfClassified (df : Table) (urlCol kwCol urlQ : String)
    (kws : List String) (h1 : ¬ "URL Match" ∈ df.colNames)
    (h2 : ¬ "Translation Match" ∈ df.colNames)
    (h3 : ¬ "Category" ∈ df.colNames) :
    (dfClassified df urlCol kwCol urlQ kws).colNames =
      df.colNames ++ ["URL Match", "Translation Match", "Category"] := by
  simp only [dfClassified]
  rw [colNames_setCol_of_not_mem, colNames_dfWithMatches df urlCol kwCol urlQ kws h1 h2,
    List.append_assoc]
  · rfl
  · rw [colNames_dfWithMatches df urlCol kwCol urlQ kws h1 h2]
    intro hx
    rcases List.mem_append.mp hx with hx | hx
    · exact h3 hx
    · rcases List.mem_cons.mp hx with hx | hx
      · exact absurd hx (by decide)
      · exact absurd (List.mem_singleton.mp hx) (by decide)

theorem getCol_dfClassified_ne (df : Table) (urlCol kwCol urlQ : String)
    (kws : List String) (n : String) (hn1 : n ≠ "URL Match")
    (hn2 : n ≠ "Translation Match") (hn3 : n ≠ "Category") :
    (dfClassified df urlCol kwCol urlQ kws).getCol n = df.getCol n := by
  simp only [dfClassified]
  rw [getCol_setCol_ne _ _ _ _ hn3, getCol_dfWithMatches_ne _ _ _ _ _ _ hn1 hn2]

/-- C3 counterexample: after a successful call the caller's table is not the
table that was passed in — three derived columns have been added to it. -/
theorem claim_C3_cex :
    ¬ (processTrafficData exSimple "Ranking URL" "Traffic Index" "Translation"
        "/compressors" "compressor").1 = exSimple ∧
    (processTrafficData exSimple "Ranking URL" "Traffic Index" "Translation"
        "/compressors" "compressor").1.colNames =
      exSimple.colNames ++ ["URL Match", "Translation Match", "Category"] :=
  ⟨by decide, by decide⟩

/-- C3 amended: the caller's table is left untouched only in the
missing-column failure.  Otherwise `process_traffic_data` mutates it in
place: `URL Match` and `Translation Match` are appended even when the call
then fails with the empty-criteria error, and `Category` is appended as well
once classification is reached; the index and the values of every original
column are preserved (stated for tables whose columns do not already use a
derived name). -/
theorem claim_C3_thm (df : Table) (urlCol trafficCol kwCol urlQ kwQ : String)
    (h1 : ¬ "URL Match" ∈ df.colNames)
    (h2 : ¬ "Translation Match" ∈ df.colNames)
    (h3 : ¬ "Category" ∈ df.colNames) :
    (¬ [urlCol, trafficCol, kwCol].filter
        (fun c => !(df.colNames.contains c)) = [] →
      (processTrafficData df urlCol trafficCol kwCol urlQ kwQ).1 = df) ∧
    ([urlCol, trafficCol, kwCol].filter
        (fun c => !(df.colNames.contains c)) = [] →
      (processTrafficData df urlCol trafficCol kwCol urlQ kwQ).1.index =
        df.index ∧
      (processTrafficData df urlCol trafficCol kwCol urlQ kwQ).1.colNames =
        df.colNames ++
          (if pyTrim urlQ == "" && (keywordList kwQ).isEmpty then
            ["URL Match", "Translation Match"]
          else ["URL Match", "Translation Match", "Category"]) ∧
      ∀ n ∈ df.colNames,
        (processTrafficData df urlCol trafficCol kwCol urlQ kwQ).1.getCol n =
          df.getCol n) := by
  have hnm : ∀ n ∈ df.colNames,
      n ≠ "URL Match" ∧ n ≠ "Translation Match" ∧ n ≠ "Category" := by
    intro n hn
    exact ⟨fun e => h1 (e ▸ hn), fun e => h2 (e ▸ hn), fun e => h3 (e ▸ hn)⟩
  constructor
  · intro hmiss
    have hm : ¬ ([urlCol, trafficCol, kwCol].filter
        (fun c => !(df.colNames.contains c))).isEmpty = true := by
      simpa [List.isEmpty_iff] using hmiss
    simp only [processTrafficData]
    rw [if_neg hm]
  · intro hmiss
    have hm : ([urlCol, trafficCol, kwCol].filter
        (fun c => !(df.colNames.contains c))).isEmpty = true :=
      List.isEmpty_iff.mpr hmiss
    simp only [processTrafficData]
    rw [if_pos hm]
    by_cases hcrit : (pyTrim urlQ == "" && (keywordList kwQ).isEmpty) = true
    · rw [if_pos hcrit, if_pos hcrit]
      refine ⟨index_dfWithMatches df urlCol kwCol urlQ (keywordList kwQ), ?_, ?_⟩
      · exact colNames_dfWithMatches df urlCol kwCol urlQ (keywordList kwQ) h1 h2
      · intro n hn
        exact getCol_dfWithMatches_ne df urlCol kwCol urlQ (keywordList kwQ) n
          (hnm n hn).1 (hnm n hn).2.1
    · rw [if_neg hcrit, if_neg hcrit]
      refine ⟨index_dfClassified df urlCol kwCol urlQ (keywordList kwQ), ?_, ?_⟩
      · exact colNames_dfClassified df urlCol kwCol urlQ (keywordList kwQ) h1 h2 h3
      · intro n hn
        exact getCol_dfClassified_ne df urlCol kwCol urlQ (keywordList kwQ) n
          (hnm n hn).1 (hnm n hn).2.1 (hnm n hn).2.2

/-- Witness for the amended C3 at concrete inputs: the missing-column failure
leaves `exBare` untouched, while the successful run on `exSimple` appends
exactly the three derived columns and keeps the traffic column's values. -/
theorem claim_C3_witness :
    (processTrafficData exBare "U" "T" "K" "/a" "").1 = exBare ∧
    (processTrafficData exSimple "Ranking URL" "Traffic Index" "Translation"
        "/compressors" "compressor").1.colNames =
      exSimple.colNames ++ ["URL Match", "Translation Match", "Category"] ∧
    (processTrafficData exSimple "Ranking URL" "Traffic Index" "Translation"
        "/compressors" "compressor").1.getCol "Traffic Index" =
      exSimple.getCol "Traffic Index" := by
  refine ⟨?_, ?_, ?_⟩
  · exact (claim_C3_thm exBare "U" "T" "K" "/a" ""
      (by decide) (by decide) (by decide)).1 (by decide)
  · have h := ((claim_C3_thm exSimple "Ranking URL" "Traffic Index"
      "Translation" "/compressors" "compressor"
      (by decide) (by decide) (by decide)).2 (by decide)).2.1
    rw [h]
    decide
  · exact ((claim_C3_thm exSimple "Ranking URL" "Traffic Index" "Translation"
      "/compressors" "compressor"
      (by decide) (by decide) (by decide)).2 (by decide)).2.2
      "Traffic Index" (by decide)

/-- C4 counterexample: the row of `exNanUrl` has a missing URL (empty parsed
path), yet its traffic 7 appears in the full-path aggregate — grouped under
the empty-string `Subfolder` entry (`groupby` only drops NaN keys, and after
`fillna('')` the key is `''`, not NaN).  The progressive aggregate indeed
receives nothing. -/
theorem claim_C4_cex :
    (analyzeSubfolders exNanUrl "Ranking URL" "Traffic Index").1 =
      [⟨"", 7, 1⟩] ∧
    (analyzeSubfolders exNanUrl "Ranking URL" "Traffic Index").2 = [] :=
  ⟨by decide, by decide⟩

theorem createProgressivePaths_empty (p : Option String)
    (hp : (p.getD "" == "") = true) : createProgressivePaths p = [] := by
  cases p with
  | none => rfl
  | some s =>
    have hs : s = "" := by simpa using hp
    simp [createProgressivePaths, hs]

/-- C4 amended: rows whose path cell is NaN or the empty string contribute to
no progressive bucket (dropping them leaves the exploded rows unchanged); in
the full-path aggregate, however, empty-path rows are not excluded — they are
aggregated under the `Subfolder = ""` entry, whose sum and count are exactly
those of the empty-path group. -/
theorem claim_C4_thm :
    (∀ rows : List (Option Int × Option String),
      explodedRows rows =
        explodedRows (rows.filter (fun r => !(r.2.getD "" == "")))) ∧
    (∀ df urlCol trafficCol, ∀ e : AggRow,
      e ∈ (analyzeSubfolders df urlCol trafficCol).1 → e.subfolder = "" →
      e.totalTraffic = sumOpt ((fullPathRows df urlCol trafficCol).filter
        (fun r => r.2 == "")) ∧
      e.numUrls = countOpt ((fullPathRows df urlCol trafficCol).filter
        (fun r => r.2 == ""))) := by
  constructor
  · intro rows
    induction rows with
    | nil => rfl
    | cons r rows ih =>
      rw [List.filter_cons]
      have hstep : explodedRows (r :: rows) =
          (createProgressivePaths r.2).map (fun pp => (r.1, pp)) ++
            explodedRows rows :=
        List.flatMap_cons r rows _
      cases hr : (r.2.getD "" == "") with
      | true =>
        rw [if_neg (by simp [hr])]
        rw [hstep, createProgressivePaths_empty r.2 hr]
        simpa using ih
      | false =>
        rw [if_pos (by simp [hr])]
        have hstep2 : explodedRows (r :: rows.filter
            (fun r => !(r.2.getD "" == ""))) =
            (createProgressivePaths r.2).map (fun pp => (r.1, pp)) ++
              explodedRows (rows.filter (fun r => !(r.2.getD "" == ""))) :=
          List.flatMap_cons r _ _
        rw [hstep, hstep2, ih]
  · intro df urlCol trafficCol e he hsub
    have he1 : e ∈ sortDescBy AggRow.totalTraffic
        (groupByPath (fullPathRows df urlCol trafficCol)) := he
    have he2 : e ∈ groupByPath (fullPathRows df urlCol trafficCol) :=
      (mem_sortBy _ e _).mp he1
    have hg := mem_groupByPath _ e he2
    rw [hsub] at hg
    exact hg

/-- Witness for the amended C4: the single empty-path row is dropped from the
exploded rows, and the `Subfolder = ""` entry of `exNanUrl` carries exactly
the empty-path group's sum. -/
theorem claim_C4_witness :
    explodedRows [((some 7 : Option Int), (some "" : Option String))] =
      explodedRows ([((some 7 : Option Int), (some "" : Option String))].filter
        (fun r => !(r.2.getD "" == ""))) ∧
    (7 : Int) = sumOpt ((fullPathRows exNanUrl
      "Ranking URL" "Traffic Index").filter (fun r => r.2 == "")) := by
  constructor
  · exact claim_C4_thm.1 [((some 7 : Option Int), (some "" : Option String))]
  · exact (claim_C4_thm.2 exNanUrl "Ranking URL" "Traffic Index" ⟨"", 7, 1⟩
      (by decide) rfl).1

/-- C5 counterexample: the root path `/` does not produce zero buckets —
`'/'.strip('/')` is `''`, whose split is the single empty component, so
`create_progressive_paths` returns the one bucket `//`. -/
theorem claim_C5_cex :
    createProgressivePaths (some "/") = ["//"] ∧
    ¬ createProgressivePaths (some "/") = [] :=
  ⟨by decide, by decide⟩

/-- C5 amended: a NaN or empty-string path produces zero buckets; any other
path `p` produces exactly one bucket per component of `p.strip('/').split('/')`
(counting empty components), the bucket of depth `i+1` being
`/c1/…/c(i+1)/`.  A single-segment path thus yields one bucket, but the root
path `/` yields the single bucket `//` (its stripped form splits into one
empty component), not zero. -/
theorem claim_C5_thm (p : String) :
    createProgressivePaths none = [] ∧
    createProgressivePaths (some "") = [] ∧
    (¬ p = "" →
      (createProgressivePaths (some p)).length =
        (pySplit (stripSlashes p) '/').length ∧
      ∀ i, i < (pySplit (stripSlashes p) '/').length →
        (createProgressivePaths (some p))[i]? =
          some ("/" ++ String.intercalate "/"
            ((pySplit (stripSlashes p) '/').take (i + 1)) ++ "/")) := by
  refine ⟨rfl, rfl, ?_⟩
  intro hp
  have hne : (p == "") = false := beq_eq_false_iff_ne.mpr hp
  constructor
  · simp [createProgressivePaths, hne]
  · intro i hi
    simp only [createProgressivePaths, hne, Bool.false_eq_true, if_false]
    rw [List.getElem?_map, List.getElem?_range hi]
    rfl

/-- Witness for the amended C5: `/compressors/small` yields exactly its two
ancestor buckets, and the single-segment `/compressors` yields exactly one. -/
theorem claim_C5_witness :
    ¬ "/compressors/small" = "" ∧
    (createProgressivePaths (some "/compressors/small")).length = 2 ∧
    (createProgressivePaths (some "/compressors/small"))[1]? =
      some "/compressors/small/" ∧
    (createProgressivePaths (some "/compressors"))[0]? =
      some "/compressors/" := by
  have h := (claim_C5_thm "/compressors/small").2.2 (by decide)
  have h2 := (claim_C5_thm "/compressors").2.2 (by decide)
  exact ⟨by decide, h.1.trans (by decide), (h.2 1 (by decide)).trans (by decide),
    (h2.2 0 (by decide)).trans (by decide)⟩

/-- C6 counterexample: with both criteria empty AND the required columns
missing, the call fails with the missing-columns error, not the
empty-criteria error — the missing-column check runs first, so "fails with
EmptyCriteriaError iff both criteria are empty" is false as stated. -/
theorem claim_C6_cex :
    pyTrim "" = "" ∧ keywordList "" = [] ∧
    (processTrafficData exBare "U" "T" "K" "" "").2 =
      Except.error (ProcErr.missingColumns ["U", "T", "K"]) ∧
    ¬ (processTrafficData exBare "U" "T" "K" "" "").2 =
      Except.error ProcErr.emptyCriteria :=
  ⟨by decide, by decide, by decide, by decide⟩

/-- C6 amended: the call fails with `MissingColumnError` exactly when some
required column is absent, naming the absent ones of
`[urlColumn, trafficColumn, keywordColumn]` in order; in that case the input
is not touched at all.  It fails with `EmptyCriteriaError` iff all required
columns are present AND the trimmed URL query is empty AND the keyword list
is empty (the missing-column failure takes precedence). -/
theorem claim_C6_thm (df : Table) (urlCol trafficCol kwCol urlQ kwQ : String) :
    (∀ m, (processTrafficData df urlCol trafficCol kwCol urlQ kwQ).2 =
        Except.error (ProcErr.missingColumns m) ↔
      (m = [urlCol, trafficCol, kwCol].filter
          (fun c => !(df.colNames.contains c)) ∧
        ¬ [urlCol, trafficCol, kwCol].filter
          (fun c => !(df.colNames.contains c)) = [])) ∧
    (¬ [urlCol, trafficCol, kwCol].filter
        (fun c => !(df.colNames.contains c)) = [] →
      (processTrafficData df urlCol trafficCol kwCol urlQ kwQ).1 = df) ∧
    ((processTrafficData df urlCol trafficCol kwCol urlQ kwQ).2 =
        Except.error ProcErr.emptyCriteria ↔
      ([urlCol, trafficCol, kwCol].filter
          (fun c => !(df.colNames.contains c)) = [] ∧
        pyTrim urlQ = "" ∧ keywordList kwQ = [])) := by
  by_cases hm : ([urlCol, trafficCol, kwCol].filter
      (fun c => !(df.colNames.contains c))).isEmpty = true
  case pos =>
    have hM : [urlCol, trafficCol, kwCol].filter
        (fun c => !(df.colNames.contains c)) = [] := List.isEmpty_iff.mp hm
    simp only [processTrafficData]
    rw [if_pos hm]
    by_cases hcrit : (pyTrim urlQ == "" && (keywordList kwQ).isEmpty) = true
    · rw [if_pos hcrit]
      have hc1 : pyTrim urlQ = "" :=
        beq_iff_eq.mp ((Bool.and_eq_true _ _).mp hcrit).1
      have hc2 : keywordList kwQ = [] :=
        List.isEmpty_iff.mp ((Bool.and_eq_true _ _).mp hcrit).2
      refine ⟨?_, ?_, ?_⟩
      · intro m
        constructor
        · intro h
          simp at h
        · rintro ⟨_, hne⟩
          exact absurd hM hne
      · intro hne
        exact absurd hM hne
      · exact ⟨fun _ => ⟨hM, hc1, hc2⟩, fun _ => rfl⟩
    · rw [if_neg hcrit]
      refine ⟨?_, ?_, ?_⟩
      · intro m
        constructor
        · intro h
          simp at h
        · rintro ⟨_, hne⟩
          exact absurd hM hne
      · intro hne
        exact absurd hM hne
      · constructor
        · intro h
          simp at h
        · rintro ⟨_, hc1, hc2⟩
          exact absurd (show (pyTrim urlQ == "" && (keywordList kwQ).isEmpty)
            = true by rw [hc1, hc2]; rfl) hcrit
  case neg =>
    have hMne : ¬ [urlCol, trafficCol, kwCol].filter
        (fun c => !(df.colNames.contains c)) = [] :=
      fun he => hm (List.isEmpty_iff.mpr he)
    simp only [processTrafficData]
    rw [if_neg hm]
    refine ⟨?_, ?_, ?_⟩
    · intro m
      constructor
      · intro h
        have h2 : ProcErr.missingColumns ([urlCol, trafficCol, kwCol].filter
            (fun c => !(df.colNames.contains c))) = ProcErr.missingColumns m :=
          Except.error.inj h
        exact ⟨(ProcErr.missingColumns.inj h2).symm, hMne⟩
      · rintro ⟨he, _⟩
        rw [he]
    · intro _
      rfl
    · constructor
      · intro h
        exact absurd (Except.error.inj h) (by simp)
      · rintro ⟨hM2, _, _⟩
        exact absurd hM2 hMne

/-- Witness for the amended C6: the missing-column failure names all three
absent columns and leaves the input untouched; with columns present and both
criteria empty the call fails with the empty-criteria error. -/
theorem claim_C6_witness :
    (processTrafficData exBare "U" "T" "K" "" "").2 =
      Except.error (ProcErr.missingColumns ["U", "T", "K"]) ∧
    (processTrafficData exBare "U" "T" "K" "" "").1 = exBare ∧
    (processTrafficData exSimple "Ranking URL" "Traffic Index" "Translation"
        "" "").2 = Except.error ProcErr.emptyCriteria := by
  refine ⟨?_, ?_, ?_⟩
  · exact ((claim_C6_thm exBare "U" "T" "K" "" "").1 ["U", "T", "K"]).mpr
      ⟨by decide, by decide⟩
  · exact (claim_C6_thm exBare "U" "T" "K" "" "").2.1 (by decide)
  · exact ((claim_C6_thm exSimple "Ranking URL" "Traffic Index" "Translation"
      "" "").2.2).mpr ⟨by decide, by decide, by decide⟩

/-! Column presence facts used for the reordering claim. -/

theorem getCol_dfWithMatches_um_isSome (df : Table) (urlCol kwCol urlQ : String)
    (kws : List String) :
    ((dfWithMatches df urlCol kwCol urlQ kws).getCol "URL Match").isSome
      = true := by
  simp only [dfWithMatches]
  split <;>
  · rw [getCol_setCol_ne _ _ _ _ (by decide)]
    split <;> (rw [getCol_setCol_self]; rfl)

theorem getCol_dfWithMatches_tm_isSome (df : Table) (urlCol kwCol urlQ : String)
    (kws : List String) :
    ((dfWithMatches df urlCol kwCol urlQ kws).getCol "Translation Match").isSome
      = true := by
  simp only [dfWithMatches]
  split <;> (rw [getCol_setCol_self]; rfl)

theorem getCol_dfClassified_um_isSome (df : Table) (urlCol kwCol urlQ : String)
    (kws : List String) :
    ((dfClassified df urlCol kwCol urlQ kws).getCol "URL Match").isSome
      = true := by
  simp only [dfClassified]
  rw [getCol_setCol_ne _ _ _ _ (by decide)]
  exact getCol_dfWithMatches_um_isSome df urlCol kwCol urlQ kws

theorem getCol_dfClassified_tm_isSome (df : Table) (urlCol kwCol urlQ : String)
    (kws : List String) :
    ((dfClassified df urlCol kwCol urlQ kws).getCol
      "Translation Match").isSome = true := by
  simp only [dfClassified]
  rw [getCol_setCol_ne _ _ _ _ (by decide)]
  exact getCol_dfWithMatches_tm_isSome df urlCol kwCol urlQ kws

theorem isSome_map_mask (o : Option (List Cell)) (m : List Bool) :
    ((o.map (fun vs => maskFilter vs m)).isSome) = o.isSome := by
  cases o <;> rfl

theorem findIdx_append_of_mem (p : α → Bool) (l1 l2 : List α)
    (h : ∃ x ∈ l1, p x = true) : (l1 ++ l2).findIdx p = l1.findIdx p := by
  induction l1 with
  | nil =>
    rcases h with ⟨x, hx, _⟩
    simp at hx
  | cons a l1 ih =>
    cases hpa : p a with
    | true => simp [List.findIdx_cons, hpa]
    | false =>
      simp only [List.cons_append, List.findIdx_cons, hpa, cond_false]
      rcases h with ⟨x, hx, hpx⟩
      rcases List.mem_cons.mp hx with hx | hx
      · exact absurd (hx ▸ hpx) (by simp [hpa])
      · rw [ih ⟨x, hx, hpx⟩]

/-- C7 counterexample: `exCollide` owns a column literally named `Category`
(value `"orig"`).  The classifier overwrites it in place, so the
FilteredTable does not preserve all original column values — and, since the
derived columns replace rather than append, the output column order is
`[…, Translation, URL Match, Translation Match, Category]` rather than the
claimed `[…, URL Match, Translation Match, Category, Translation]`. -/
theorem claim_C7_cex :
    (processTrafficData exCollide "Ranking URL" "Traffic Index" "Translation"
        "/a" "").2 = Except.ok exCollideOut ∧
    exCollide.getCol "Category" = some [some (Val.s "orig")] ∧
    exCollideOut.getCol "Category" = some [some (Val.s "URL matches only")] ∧
    exCollideOut.colNames = ["Ranking URL", "Traffic Index", "Translation",
      "URL Match", "Translation Match", "Category"] :=
  ⟨by decide, by decide, by decide, by decide⟩

/-- C7 amended: provided no original column is named `URL Match`,
`Translation Match` or `Category`, a successful run returns a table whose
column order is the original columns up to (excluding) the keyword column,
then the three derived columns, then the keyword column and the remaining
originals; its index is the kept-row sublist of the original index, and every
original column's values are exactly the kept-row sublist of its original
values. -/
theorem claim_C7_thm (df : Table) (urlCol trafficCol kwCol urlQ kwQ : String)
    (out : Table)
    (h1 : ¬ "URL Match" ∈ df.colNames)
    (h2 : ¬ "Translation Match" ∈ df.colNames)
    (h3 : ¬ "Category" ∈ df.colNames)
    (hok : (processTrafficData df urlCol trafficCol kwCol urlQ kwQ).2 =
      Except.ok out) :
    out.colNames =
      df.colNames.take (df.colNames.findIdx (fun c => c == kwCol)) ++
        ["URL Match", "Translation Match", "Category"] ++
        df.colNames.drop (df.colNames.findIdx (fun c => c == kwCol)) ∧
    out.index = maskFilter df.index
      (keepMask (dfClassified df urlCol kwCol urlQ (keywordList kwQ))) ∧
    ∀ n ∈ df.colNames,
      out.getCol n = (df.getCol n).map (fun vs => maskFilter vs
        (keepMask (dfClassified df urlCol kwCol urlQ (keywordList kwQ)))) := by
  simp only [processTrafficData] at hok
  by_cases hm : ([urlCol, trafficCol, kwCol].filter
      (fun c => !(df.colNames.contains c))).isEmpty = true
  case neg =>
    rw [if_neg hm] at hok
    simp at hok
  case pos =>
  rw [if_pos hm] at hok
  by_cases hcrit : (pyTrim urlQ == "" && (keywordList kwQ).isEmpty) = true
  case pos =>
    rw [if_pos hcrit] at hok
    simp at hok
  case neg =>
  rw [if_neg hcrit] at hok
  have hout : Except.ok (reorderCols
      ((dfClassified df urlCol kwCol urlQ (keywordList kwQ)).filterRows
        (keepMask (dfClassified df urlCol kwCol urlQ (keywordList kwQ))))
      kwCol) = Except.ok out := hok
  have hsub := Except.ok.inj hout
  subst hsub
  have hkw : kwCol ∈ df.colNames := by
    by_contra hq
    have hcont : df.colNames.contains kwCol = false := by
      rcases Bool.eq_false_or_eq_true (df.colNames.contains kwCol) with ht | hf
      · exact absurd (by simpa using ht) hq
      · exact hf
    have hmem : kwCol ∈ [urlCol, trafficCol, kwCol].filter
        (fun c => !(df.colNames.contains c)) := by
      rw [List.mem_filter]
      exact ⟨by simp, by rw [hcont]; rfl⟩
    rw [List.isEmpty_iff.mp hm] at hmem
    simp at hmem
  have hFn : ((dfClassified df urlCol kwCol urlQ
      (keywordList kwQ)).filterRows (keepMask (dfClassified df urlCol kwCol
        urlQ (keywordList kwQ)))).colNames =
      df.colNames ++ ["URL Match", "Translation Match", "Category"] := by
    rw [colNames_filterRows,
      colNames_dfClassified df urlCol kwCol urlQ (keywordList kwQ) h1 h2 h3]
  have hmemF : kwCol ∈ ((dfClassified df urlCol kwCol urlQ
      (keywordList kwQ)).filterRows (keepMask (dfClassified df urlCol kwCol
        urlQ (keywordList kwQ)))).colNames := by
    rw [hFn]
    exact List.mem_append.mpr (Or.inl hkw)
  have hcontF : (((dfClassified df urlCol kwCol urlQ
      (keywordList kwQ)).filterRows (keepMask (dfClassified df urlCol kwCol
        urlQ (keywordList kwQ)))).colNames).contains kwCol = true := by
    simpa using hmemF
  simp only [reorderCols]
  rw [if_pos hcontF]
  rw [hFn]
  have hidx : (df.colNames ++
      ["URL Match", "Translation Match", "Category"]).findIdx
        (fun c => c == kwCol) =
      df.colNames.findIdx (fun c => c == kwCol) :=
    findIdx_append_of_mem _ _ _ ⟨kwCol, hkw, by simp⟩
  have hcols2 : (((df.colNames ++
      ["URL Match", "Translation Match", "Category"]).erase
        "URL Match").erase "Translation Match").erase "Category" =
      df.colNames := by
    rw [List.erase_append_right _ h1,
      (by decide : (["URL Match", "Translation Match", "Category"] :
        List String).erase "URL Match" = ["Translation Match", "Category"]),
      List.erase_append_right _ h2,
      (by decide : (["Translation Match", "Category"] :
        List String).erase "Translation Match" = ["Category"]),
      List.erase_append_right _ h3,
      (by decide : (["Category"] : List String).erase "Category" =
        ([] : List String)),
      List.append_nil]
  rw [hidx, hcols2]
  have hsome : ∀ n ∈ df.colNames.take (df.colNames.findIdx
        (fun c => c == kwCol)) ++
      ["URL Match", "Translation Match", "Category"] ++
      df.colNames.drop (df.colNames.findIdx (fun c => c == kwCol)),
      (((dfClassified df urlCol kwCol urlQ (keywordList kwQ)).filterRows
        (keepMask (dfClassified df urlCol kwCol urlQ
          (keywordList kwQ)))).getCol n).isSome = true := by
    intro n hn
    have hn2 : n ∈ df.colNames ∨
        n ∈ (["URL Match", "Translation Match", "Category"] : List String) := by
      rcases List.mem_append.mp hn with hn | hn
      · rcases List.mem_append.mp hn with hn | hn
        · exact Or.inl (List.take_subset _ _ hn)
        · exact Or.inr hn
      · exact Or.inl (List.drop_subset _ _ hn)
    rw [getCol_filterRows, isSome_map_mask]
    rcases hn2 with hn2 | hn2
    · rw [getCol_dfClassified_ne _ _ _ _ _ n (fun e => h1 (e ▸ hn2))
        (fun e => h2 (e ▸ hn2)) (fun e => h3 (e ▸ hn2))]
      exact getCol_isSome_of_mem df n hn2
    · rcases List.mem_cons.mp hn2 with hn3 | hn3
      · rw [hn3]
        exact getCol_dfClassified_um_isSome df urlCol kwCol urlQ (keywordList kwQ)
      · rcases List.mem_cons.mp hn3 with hn4 | hn4
        · rw [hn4]
          exact getCol_dfClassified_tm_isSome df urlCol kwCol urlQ
            (keywordList kwQ)
        · rw [List.mem_singleton.mp hn4, getCol_dfClassified_cat]
          rfl
  refine ⟨?_, ?_, ?_⟩
  · exact colNames_selectCols _ _ hsome
  · rw [index_selectCols, index_filterRows, index_dfClassified]
  · intro n hn
    have hnm : n ∈ df.colNames.take (df.colNames.findIdx
          (fun c => c == kwCol)) ++
        ["URL Match", "Translation Match", "Category"] ++
        df.colNames.drop (df.colNames.findIdx (fun c => c == kwCol)) := by
      have hn3 : n ∈ df.colNames.take (df.colNames.findIdx
          (fun c => c == kwCol)) ++ df.colNames.drop
            (df.colNames.findIdx (fun c => c == kwCol)) := by
        rw [List.take_append_drop]
        exact hn
      rcases List.mem_append.mp hn3 with hn4 | hn4
      · exact List.mem_append.mpr (Or.inl (List.mem_append.mpr (Or.inl hn4)))
      · exact List.mem_append.mpr (Or.inr hn4)
    rw [getCol_selectCols_mem _ _ _ hnm, getCol_filterRows,
      getCol_dfClassified_ne _ _ _ _ _ n (fun e => h1 (e ▸ hn))
        (fun e => h2 (e ▸ hn)) (fun e => h3 (e ▸ hn))]

/-- Witness for the amended C7 on `exSimple`: the concrete column order and
the preserved traffic column. -/
theorem claim_C7_witness :
    exSimpleOut.colNames = ["Ranking URL", "Traffic Index", "URL Match",
      "Translation Match", "Category", "Translation"] ∧
    exSimpleOut.getCol "Traffic Index" = some [some (Val.num 10)] := by
  have h := claim_C7_thm exSimple "Ranking URL" "Traffic Index" "Translation"
    "/compressors" "compressor" exSimpleOut (by decide) (by decide) (by decide)
    (by decide)
  exact ⟨h.1.trans (by decide), (h.2.2 "Traffic Index" (by decide)).trans
    (by decide)⟩

/-- C8 counterexample: in `exTie` the path `/b` is first-seen (row label 0)
and `/a` second, with equal traffic 5; the full-path aggregate nevertheless
lists `/a` before `/b` — `groupby` pre-sorts the keys lexicographically, so
equal-traffic entries do not retain insertion/first-seen order. -/
theorem claim_C8_cex :
    (analyzeSubfolders exTie "Ranking URL" "Traffic Index").1.map
      AggRow.subfolder = ["/a", "/b"] ∧
    ¬ (analyzeSubfolders exTie "Ranking URL" "Traffic Index").1.map
      AggRow.subfolder = ["/b", "/a"] ∧
    (analyzeSubfolders exTie "Ranking URL" "Traffic Index").1.map
      AggRow.totalTraffic = [5, 5] :=
  ⟨by decide, by decide, by decide⟩

/-- C8 amended: both aggregates are sorted deterministically in descending
order of summed traffic, and entries with equal summed traffic appear in
lexicographic order of their path (the order the groupby key sort produced),
not in insertion/first-seen order.  (The model takes the underlying sort as
stable; numpy's default sort is unstable in general but coincides with the
stable result on the small inputs evaluated here.) -/
theorem claim_C8_thm (df : Table) (urlCol trafficCol : String) :
    List.Pairwise aggOrdered (analyzeSubfolders df urlCol trafficCol).1 ∧
    List.Pairwise progOrdered (analyzeSubfolders df urlCol trafficCol).2 := by
  constructor
  · exact pairwise_sortDescBy AggRow.totalTraffic AggRow.subfolder
      (groupByPath (fullPathRows df urlCol trafficCol))
      (pairwise_key_groupByPath _)
  · have hkeys2 : List.Pairwise
        (fun x y : ProgRow => strLtB x.subfolder y.subfolder = true)
        (progWithSplits df urlCol trafficCol) := by
      unfold progWithSplits
      rw [List.pairwise_map]
      exact pairwise_key_groupByPath _
    exact pairwise_sortDescBy ProgRow.totalTraffic ProgRow.subfolder _ hkeys2

/-- C9: in the progressive aggregate every bucket's `Traffic Split` equals
`(100 · bucketTraffic / Σ all bucket traffic)` rounded half-even to two
decimals and rendered with a trailing `%`, and likewise `URL Split` with the
bucket counts; the denominators are the sums over all progressive buckets of
the output (not the original table's totals).  Stated for runs where the two
grand totals are nonzero (with a zero denominator the Python code would
produce float NaN/inf strings, outside this model). -/
theorem claim_C9_thm (df : Table) (urlCol trafficCol : String)
    (hT : ¬ progTotalTraffic df urlCol trafficCol = 0)
    (hU : ¬ progTotalUrls df urlCol trafficCol = 0) :
    ((analyzeSubfolders df urlCol trafficCol).2.map ProgRow.totalTraffic).sum
      = progTotalTraffic df urlCol trafficCol ∧
    ((analyzeSubfolders df urlCol trafficCol).2.map
      (fun e => (e.numUrls : Int))).sum
      = ((progTotalUrls df urlCol trafficCol : Nat) : Int) ∧
    ∀ e ∈ (analyzeSubfolders df urlCol trafficCol).2,
      e.trafficSplit = pctString e.totalTraffic
        (((analyzeSubfolders df urlCol trafficCol).2.map
          ProgRow.totalTraffic).sum) ∧
      e.urlSplit = pctString (e.numUrls : Int)
        (((analyzeSubfolders df urlCol trafficCol).2.map
          (fun e => (e.numUrls : Int))).sum) := by
  have hsumT : ((analyzeSubfolders df urlCol trafficCol).2.map
      ProgRow.totalTraffic).sum = progTotalTraffic df urlCol trafficCol := by
    have h1 : (((sortDescBy ProgRow.totalTraffic
        (progWithSplits df urlCol trafficCol)).map ProgRow.totalTraffic)).sum
        = ((progWithSplits df urlCol trafficCol).map ProgRow.totalTraffic).sum :=
      sum_map_sortDescBy ProgRow.totalTraffic ProgRow.totalTraffic _
    have h2 : ((progWithSplits df urlCol trafficCol).map
        ProgRow.totalTraffic).sum
        = ((progGrouped df urlCol trafficCol).map AggRow.totalTraffic).sum := by
      unfold progWithSplits
      rw [List.map_map]
      rfl
    exact h1.trans h2
  have hsumU : ((analyzeSubfolders df urlCol trafficCol).2.map
      (fun e => (e.numUrls : Int))).sum
      = ((progTotalUrls df urlCol trafficCol : Nat) : Int) := by
    have h1 : (((sortDescBy ProgRow.totalTraffic
        (progWithSplits df urlCol trafficCol)).map
          (fun e => (e.numUrls : Int)))).sum
        = ((progWithSplits df urlCol trafficCol).map
          (fun e => (e.numUrls : Int))).sum :=
      sum_map_sortDescBy ProgRow.totalTraffic _ _
    have h2 : ((progWithSplits df urlCol trafficCol).map
        (fun e => (e.numUrls : Int))).sum
        = ((progGrouped df urlCol trafficCol).map
          (fun a => (a.numUrls : Int))).sum := by
      unfold progWithSplits
      rw [List.map_map]
      rfl
    have h3 : ((progGrouped df urlCol trafficCol).map
        (fun a => (a.numUrls : Int))).sum
        = ((progTotalUrls df urlCol trafficCol : Nat) : Int) := by
      unfold progTotalUrls
      rw [Nat.cast_list_sum, List.map_map]
      rfl
    exact (h1.trans h2).trans h3
  refine ⟨hsumT, hsumU, ?_⟩
  intro e he
  have he1 : e ∈ sortDescBy ProgRow.totalTraffic
      (progWithSplits df urlCol trafficCol) := he
  have he2 := (mem_sortBy _ e _).mp he1
  unfold progWithSplits at he2
  rcases List.mem_map.mp he2 with ⟨a, ha, hae⟩
  rw [← hae]
  rw [hsumT, hsumU]
  exact ⟨rfl, rfl⟩

/-- Witness for C9 on `exTie`: the `/a/` bucket carries traffic 5 of a grand
total of 10 and 1 of 2 URLs, and both splits render as `50.0%`. -/
theorem claim_C9_witness :
    (⟨"/a/", 5, 1, "50.0%", "50.0%"⟩ : ProgRow).trafficSplit =
      pctString 5 10 ∧
    (⟨"/a/", 5, 1, "50.0%", "50.0%"⟩ : ProgRow).urlSplit =
      pctString 1 2 ∧
    pctString 5 10 = "50.0%" := by
  have h := (claim_C9_thm exTie "Ranking URL" "Traffic Index" (by decide)
    (by decide)).2.2 ⟨"/a/", 5, 1, "50.0%", "50.0%"⟩ (by decide)
  exact ⟨h.1.trans (by decide), h.2.trans (by decide), by decide⟩

/-- C10: in both aggregates an entry's `Total Traffic` is the NaN-skipping
sum over its path group (so a null traffic cell contributes 0) and its
`Number of URLs` counts only the rows of the group whose traffic cell is
non-null; prepending a null-traffic row to a group changes neither the sum
nor the count, and no error is raised. -/
theorem claim_C10_thm (df : Table) (urlCol trafficCol : String) :
    (∀ e ∈ (analyzeSubfolders df urlCol trafficCol).1,
      e.totalTraffic = sumOpt ((fullPathRows df urlCol trafficCol).filter
        (fun r => r.2 == e.subfolder)) ∧
      e.numUrls = countOpt ((fullPathRows df urlCol trafficCol).filter
        (fun r => r.2 == e.subfolder))) ∧
    (∀ e ∈ (analyzeSubfolders df urlCol trafficCol).2,
      e.totalTraffic = sumOpt ((explodedRows (combinedRows df urlCol
        trafficCol)).filter (fun r => r.2 == e.subfolder)) ∧
      e.numUrls = countOpt ((explodedRows (combinedRows df urlCol
        trafficCol)).filter (fun r => r.2 == e.subfolder))) ∧
    (∀ (rows : List (Option Int × String)) (r : Option Int × String),
      r.1 = none →
      sumOpt (r :: rows) = sumOpt rows ∧
      countOpt (r :: rows) = countOpt rows) := by
  refine ⟨?_, ?_, ?_⟩
  · intro e he
    have he1 : e ∈ sortDescBy AggRow.totalTraffic
        (groupByPath (fullPathRows df urlCol trafficCol)) := he
    exact mem_groupByPath _ e ((mem_sortBy _ e _).mp he1)
  · intro e he
    have he1 : e ∈ sortDescBy ProgRow.totalTraffic
        (progWithSplits df urlCol trafficCol) := he
    have he2 := (mem_sortBy _ e _).mp he1
    unfold progWithSplits at he2
    rcases List.mem_map.mp he2 with ⟨a, ha, hae⟩
    have hg := mem_groupByPath _ a ha
    rw [← hae]
    exact hg
  · intro rows r hr
    constructor
    · show List.foldl (fun acc x => acc + x.1.getD 0) 0 (r :: rows) =
        sumOpt rows
      rw [List.foldl_cons, hr]
      rfl
    · show ((r :: rows).filter (fun x => x.1.isSome)).length = countOpt rows
      rw [List.filter_cons, hr]
      rfl

/-- Witness for C10 on `exNanTraffic`: the `/a` group holds one row with
traffic 10 and one with NaN traffic; the aggregate entry sums to 10 over 1
counted URL, and prepending the NaN row to the group leaves sum and count
unchanged. -/
theorem claim_C10_witness :
    (10 : Int) = sumOpt ((fullPathRows exNanTraffic "Ranking URL"
      "Traffic Index").filter (fun r => r.2 == "/a")) ∧
    sumOpt [((none : Option Int), "/a"), (some 10, "/a")] =
      sumOpt [((some 10 : Option Int), "/a")] ∧
    countOpt [((none : Option Int), "/a"), (some 10, "/a")] =
      countOpt [((some 10 : Option Int), "/a")] := by
  refine ⟨?_, ?_, ?_⟩
  · exact ((claim_C10_thm exNanTraffic "Ranking URL" "Traffic Index").1
      ⟨"/a", 10, 1⟩ (by decide)).1
  · exact ((claim_C10_thm exNanTraffic "Ranking URL" "Traffic Index").2.2
      [((some 10 : Option Int), "/a")] ((none : Option Int), "/a") rfl).1
  · exact ((claim_C10_thm exNanTraffic "Ranking URL" "Traffic Index").2.2
      [((some 10 : Option Int), "/a")] ((none : Option Int), "/a") rfl).2
